import Mathlib

/-!
Verification of the ImageBitpatch batch image-processing tool (src/index.js).

The JavaScript source is shallowly embedded: pure arithmetic becomes functions
over `Nat`/`Int`/`ℚ` (JS `Math.round` is modelled exactly as `⌊q + 1/2⌋`),
the filesystem and the sharp image library become explicit oracle structures,
and the worker/progress machinery becomes pure state-passing functions.
-/

namespace ImageBitpatch

open scoped List

/-! ### Geometry Calculator (src/index.js, `calculateCropArea`, lines 184–224) -/

/-- A crop rectangle as returned by `calculateCropArea`. -/
structure CropRect where
  left : Int
  top : Int
  width : Int
  height : Int
deriving DecidableEq

/-- JS `Math.round x = ⌊x + 1/2⌋` (exact for every finite double; the inputs
here are small integer ratios, so the double arithmetic is modelled by `ℚ`). -/
def jsRound (q : ℚ) : Int := ⌊q + 1/2⌋

/-- Embedding of `calculateCropArea(originalWidth, originalHeight, targetWidth,
targetHeight, cropPosition)`.  The JS `switch` has cases `'top'`, `'bottom'`,
and `'center'` sharing a body with `default`, hence the final catch-all. -/
def calculateCropArea (originalWidth originalHeight targetWidth targetHeight : Nat)
    (cropPosition : String) : CropRect :=
  let targetRatio : ℚ := (targetWidth : ℚ) / (targetHeight : ℚ)
  let originalRatio : ℚ := (originalWidth : ℚ) / (originalHeight : ℚ)
  if originalRatio > targetRatio then
    -- source relatively wider: keep full height, crop width, center horizontally
    let cropHeight : Int := originalHeight
    let cropWidth : Int := jsRound ((originalHeight : ℚ) * targetRatio)
    let left : Int := jsRound (((originalWidth : ℚ) - (cropWidth : ℚ)) / 2)
    let top : Int := 0
    { left := max 0 left, top := max 0 top,
      width := min cropWidth (originalWidth : Int),
      height := min cropHeight (originalHeight : Int) }
  else
    -- source relatively taller or equal: keep full width, crop height by anchor
    let cropWidth : Int := originalWidth
    let cropHeight : Int := jsRound ((originalWidth : ℚ) / targetRatio)
    let left : Int := 0
    let top : Int :=
      if cropPosition = "top" then 0
      else if cropPosition = "bottom" then (originalHeight : Int) - cropHeight
      else jsRound (((originalHeight : ℚ) - (cropHeight : ℚ)) / 2)
    { left := max 0 left, top := max 0 top,
      width := min cropWidth (originalWidth : Int),
      height := min cropHeight (originalHeight : Int) }

lemma jsRound_nonneg {q : ℚ} (h : 0 ≤ q) : 0 ≤ jsRound q := by
  unfold jsRound
  exact Int.floor_nonneg.mpr (by linarith)

lemma jsRound_le_int {q : ℚ} {n : Int} (h : q ≤ (n : ℚ)) : jsRound q ≤ n := by
  unfold jsRound
  have h1 : q + 1/2 < ((n + 1 : Int) : ℚ) := by push_cast; linarith
  exact Int.lt_add_one_iff.mp (Int.floor_lt.mpr h1)

lemma jsRound_half_le {d : Int} (h : 0 ≤ d) : jsRound ((d : ℚ) / 2) ≤ d := by
  unfold jsRound
  have hd : (0 : ℚ) ≤ (d : ℚ) := by exact_mod_cast h
  have h1 : (d : ℚ) / 2 + 1/2 < ((d + 1 : Int) : ℚ) := by push_cast; linarith
  exact Int.lt_add_one_iff.mp (Int.floor_lt.mpr h1)

lemma jsRound_natsub_half_le {n : Nat} {b : Int} (h : b ≤ (n : Int)) :
    jsRound (((n : ℚ) - (b : ℚ)) / 2) ≤ (n : Int) - b := by
  have h0 := jsRound_half_le (d := (n : Int) - b) (by omega)
  have hc : (((n : Int) - b : Int) : ℚ) = (n : ℚ) - (b : ℚ) := by push_cast; ring
  rw [hc] at h0
  exact h0

/-- In the wider branch, the un-rounded crop width is below the source width. -/
lemma cropWidth_arg_lt {ow oh tw th : Nat} (hoh : 0 < oh) (hth : 0 < th)
    (hw : (ow : ℚ) / (oh : ℚ) > (tw : ℚ) / (th : ℚ)) :
    (oh : ℚ) * ((tw : ℚ) / (th : ℚ)) < (ow : ℚ) := by
  have hoh' : (0 : ℚ) < (oh : ℚ) := by exact_mod_cast hoh
  have hth' : (0 : ℚ) < (th : ℚ) := by exact_mod_cast hth
  rw [gt_iff_lt, div_lt_div_iff hth' hoh'] at hw
  have h2 : (oh : ℚ) * ((tw : ℚ) / (th : ℚ)) = (oh : ℚ) * (tw : ℚ) / (th : ℚ) := by
    ring
  rw [h2, div_lt_iff hth']
  nlinarith

/-- In the taller-or-equal branch, the un-rounded crop height is at most the
source height. -/
lemma cropHeight_arg_le {ow oh tw th : Nat} (hoh : 0 < oh) (htw : 0 < tw) (hth : 0 < th)
    (hle : (ow : ℚ) / (oh : ℚ) ≤ (tw : ℚ) / (th : ℚ)) :
    (ow : ℚ) / ((tw : ℚ) / (th : ℚ)) ≤ (oh : ℚ) := by
  have hoh' : (0 : ℚ) < (oh : ℚ) := by exact_mod_cast hoh
  have htw' : (0 : ℚ) < (tw : ℚ) := by exact_mod_cast htw
  have hth' : (0 : ℚ) < (th : ℚ) := by exact_mod_cast hth
  rw [div_le_div_iff hoh' hth'] at hle
  rw [div_div_eq_mul_div, div_le_iff htw']
  nlinarith

lemma wide_cropWidth_nonneg (oh tw th : Nat) :
    0 ≤ jsRound ((oh : ℚ) * ((tw : ℚ) / (th : ℚ))) :=
  jsRound_nonneg (by positivity)

lemma wide_cropWidth_le_ow {ow oh tw th : Nat} (hoh : 0 < oh) (hth : 0 < th)
    (hw : (ow : ℚ) / (oh : ℚ) > (tw : ℚ) / (th : ℚ)) :
    jsRound ((oh : ℚ) * ((tw : ℚ) / (th : ℚ))) ≤ (ow : Int) :=
  jsRound_le_int (by
    have := cropWidth_arg_lt hoh hth hw
    push_cast
    linarith)

lemma tall_cropHeight_nonneg (ow tw th : Nat) :
    0 ≤ jsRound ((ow : ℚ) / ((tw : ℚ) / (th : ℚ))) :=
  jsRound_nonneg (by positivity)

lemma tall_cropHeight_le_oh {ow oh tw th : Nat} (hoh : 0 < oh) (htw : 0 < tw) (hth : 0 < th)
    (hle : (ow : ℚ) / (oh : ℚ) ≤ (tw : ℚ) / (th : ℚ)) :
    jsRound ((ow : ℚ) / ((tw : ℚ) / (th : ℚ))) ≤ (oh : Int) :=
  jsRound_le_int (by
    have := cropHeight_arg_le hoh htw hth hle
    push_cast
    linarith)

/-- The anchor argument can only influence the `top` field of the result. -/
lemma anchor_changes_only_top (ow oh tw th : Nat) (p₁ p₂ : String) :
    (calculateCropArea ow oh tw th p₁).left = (calculateCropArea ow oh tw th p₂).left ∧
    (calculateCropArea ow oh tw th p₁).width = (calculateCropArea ow oh tw th p₂).width ∧
    (calculateCropArea ow oh tw th p₁).height = (calculateCropArea ow oh tw th p₂).height := by
  simp only [calculateCropArea]
  by_cases hw : (ow : ℚ) / (oh : ℚ) > (tw : ℚ) / (th : ℚ) <;>
    simp [hw]

/-- C3: with `originalRatio > targetRatio` the crop keeps the full height, the
width is `round(originalHeight * targetRatio)`, the crop is horizontally
centered and `top = 0`, for every anchor. -/
theorem crop_area_wider_case (ow oh tw th : Nat) (pos : String)
    (how : 0 < ow) (hoh : 0 < oh) (htw : 0 < tw) (hth : 0 < th)
    (hw : (ow : ℚ) / (oh : ℚ) > (tw : ℚ) / (th : ℚ)) :
    (calculateCropArea ow oh tw th pos).height = (oh : Int) ∧
    (calculateCropArea ow oh tw th pos).width = jsRound ((oh : ℚ) * ((tw : ℚ) / (th : ℚ))) ∧
    (calculateCropArea ow oh tw th pos).left
      = jsRound (((ow : ℚ) - ((jsRound ((oh : ℚ) * ((tw : ℚ) / (th : ℚ)))) : ℚ)) / 2) ∧
    (calculateCropArea ow oh tw th pos).top = 0 := by
  have hcw0 := wide_cropWidth_nonneg oh tw th
  have hcwle := wide_cropWidth_le_ow hoh hth hw
  have hl0 : 0 ≤ jsRound (((ow : ℚ) - ((jsRound ((oh : ℚ) * ((tw : ℚ) / (th : ℚ)))) : ℚ)) / 2) := by
    apply jsRound_nonneg
    have : ((jsRound ((oh : ℚ) * ((tw : ℚ) / (th : ℚ)))) : ℚ) ≤ (ow : ℚ) := by
      exact_mod_cast hcwle
    linarith
  simp only [calculateCropArea]
  rw [if_pos hw]
  refine ⟨?_, ?_, ?_, ?_⟩
  · simp
  · simp [min_eq_left hcwle]
  · simp [max_eq_right hl0]
  · simp

/-- C4: with `originalRatio ≤ targetRatio` the crop keeps the full width, the
height is `round(originalWidth / targetRatio)`, the vertical offset follows
the anchor (`top` → 0, `bottom` → `originalHeight - cropHeight`, `center` →
`round((originalHeight - cropHeight)/2)`), and the anchor changes only the
`top` field. -/
theorem crop_area_taller_case (ow oh tw th : Nat)
    (how : 0 < ow) (hoh : 0 < oh) (htw : 0 < tw) (hth : 0 < th)
    (hle : (ow : ℚ) / (oh : ℚ) ≤ (tw : ℚ) / (th : ℚ)) :
    (∀ pos : String,
      (calculateCropArea ow oh tw th pos).width = (ow : Int) ∧
      (calculateCropArea ow oh tw th pos).height
        = jsRound ((ow : ℚ) / ((tw : ℚ) / (th : ℚ)))) ∧
    (calculateCropArea ow oh tw th "top").top = 0 ∧
    (calculateCropArea ow oh tw th "bottom").top
      = (oh : Int) - jsRound ((ow : ℚ) / ((tw : ℚ) / (th : ℚ))) ∧
    (calculateCropArea ow oh tw th "center").top
      = jsRound (((oh : ℚ) - ((jsRound ((ow : ℚ) / ((tw : ℚ) / (th : ℚ)))) : ℚ)) / 2) ∧
    (∀ p₁ p₂ : String,
      (calculateCropArea ow oh tw th p₁).left = (calculateCropArea ow oh tw th p₂).left ∧
      (calculateCropArea ow oh tw th p₁).width = (calculateCropArea ow oh tw th p₂).width ∧
      (calculateCropArea ow oh tw th p₁).height = (calculateCropArea ow oh tw th p₂).height) := by
  have hnw : ¬((ow : ℚ) / (oh : ℚ) > (tw : ℚ) / (th : ℚ)) := not_lt.mpr hle
  have hch0 := tall_cropHeight_nonneg ow tw th
  have hchle := tall_cropHeight_le_oh hoh htw hth hle
  have hbot0 : (0 : Int) ≤ (oh : Int) - jsRound ((ow : ℚ) / ((tw : ℚ) / (th : ℚ))) := by
    omega
  have hcen0 : 0 ≤ jsRound (((oh : ℚ) - ((jsRound ((ow : ℚ) / ((tw : ℚ) / (th : ℚ)))) : ℚ)) / 2) := by
    apply jsRound_nonneg
    have : ((jsRound ((ow : ℚ) / ((tw : ℚ) / (th : ℚ)))) : ℚ) ≤ (oh : ℚ) := by
      exact_mod_cast hchle
    linarith
  refine ⟨fun pos => ?_, ?_, ?_, ?_, fun p₁ p₂ => anchor_changes_only_top ow oh tw th p₁ p₂⟩
  · simp only [calculateCropArea]
    rw [if_neg hnw]
    exact ⟨by simp, by simp [min_eq_left hchle]⟩
  · simp only [calculateCropArea]
    rw [if_neg hnw]
    simp
  · simp only [calculateCropArea]
    rw [if_neg hnw]
    simp [max_eq_right hbot0]
  · simp only [calculateCropArea]
    rw [if_neg hnw]
    simp [max_eq_right hcen0]

/-- C5: for positive inputs and any anchor the crop rectangle has non-negative
fields and fits inside the source image. -/
theorem crop_area_in_bounds (ow oh tw th : Nat) (pos : String)
    (how : 0 < ow) (hoh : 0 < oh) (htw : 0 < tw) (hth : 0 < th) :
    0 ≤ (calculateCropArea ow oh tw th pos).left ∧
    0 ≤ (calculateCropArea ow oh tw th pos).top ∧
    0 ≤ (calculateCropArea ow oh tw th pos).width ∧
    0 ≤ (calculateCropArea ow oh tw th pos).height ∧
    (calculateCropArea ow oh tw th pos).left + (calculateCropArea ow oh tw th pos).width
      ≤ (ow : Int) ∧
    (calculateCropArea ow oh tw th pos).top + (calculateCropArea ow oh tw th pos).height
      ≤ (oh : Int) := by
  simp only [calculateCropArea]
  by_cases hw : (ow : ℚ) / (oh : ℚ) > (tw : ℚ) / (th : ℚ)
  · rw [if_pos hw]
    have hcw0 := wide_cropWidth_nonneg oh tw th
    have hcwle := wide_cropWidth_le_ow hoh hth hw
    have hl_le : jsRound (((ow : ℚ) - ((jsRound ((oh : ℚ) * ((tw : ℚ) / (th : ℚ)))) : ℚ)) / 2)
        ≤ (ow : Int) - jsRound ((oh : ℚ) * ((tw : ℚ) / (th : ℚ))) :=
      jsRound_natsub_half_le hcwle
    refine ⟨le_max_left _ _, le_max_left _ _, le_min hcw0 (by positivity), ?_, ?_, ?_⟩
    · simp
    · have hmaxw : min (jsRound ((oh : ℚ) * ((tw : ℚ) / (th : ℚ)))) ((ow : Nat) : Int)
          = jsRound ((oh : ℚ) * ((tw : ℚ) / (th : ℚ))) := min_eq_left hcwle
      simp only [hmaxw]
      rcases le_or_lt 0 (jsRound (((ow : ℚ) - ((jsRound ((oh : ℚ) * ((tw : ℚ) / (th : ℚ)))) : ℚ)) / 2)) with h0 | h0
      · rw [max_eq_right h0]; omega
      · rw [max_eq_left (le_of_lt h0)]; omega
    · simp
  · rw [if_neg hw]
    have hle : (ow : ℚ) / (oh : ℚ) ≤ (tw : ℚ) / (th : ℚ) := not_lt.mp hw
    have hch0 := tall_cropHeight_nonneg ow tw th
    have hchle := tall_cropHeight_le_oh hoh htw hth hle
    have hminh : min (jsRound ((ow : ℚ) / ((tw : ℚ) / (th : ℚ)))) ((oh : Nat) : Int)
        = jsRound ((ow : ℚ) / ((tw : ℚ) / (th : ℚ))) := min_eq_left hchle
    refine ⟨le_max_left _ _, le_max_left _ _, by positivity, le_min hch0 (by positivity), ?_, ?_⟩
    · simp
    · simp only [hminh]
      by_cases hp1 : pos = "top"
      · rw [if_pos hp1]; simp; omega
      · rw [if_neg hp1]
        by_cases hp2 : pos = "bottom"
        · rw [if_pos hp2]
          rw [max_eq_right (by omega)]
          omega
        · rw [if_neg hp2]
          have hc_le : jsRound (((oh : ℚ) - ((jsRound ((ow : ℚ) / ((tw : ℚ) / (th : ℚ)))) : ℚ)) / 2)
              ≤ (oh : Int) - jsRound ((ow : ℚ) / ((tw : ℚ) / (th : ℚ))) :=
            jsRound_natsub_half_le hchle
          rcases le_or_lt 0 (jsRound (((oh : ℚ) - ((jsRound ((ow : ℚ) / ((tw : ℚ) / (th : ℚ)))) : ℚ)) / 2)) with h0 | h0
          · rw [max_eq_right h0]; omega
          · rw [max_eq_left (le_of_lt h0)]; omega

/-- C10: any anchor other than `"top"` and `"bottom"` (not just `"center"`)
falls into the `default` arm of the `switch`, so the result coincides with the
`"center"` result and `top = round((originalHeight - cropHeight)/2)`. -/
theorem crop_area_unknown_anchor (ow oh tw th : Nat) (pos : String)
    (how : 0 < ow) (hoh : 0 < oh) (htw : 0 < tw) (hth : 0 < th)
    (hle : (ow : ℚ) / (oh : ℚ) ≤ (tw : ℚ) / (th : ℚ))
    (hpt : pos ≠ "top") (hpb : pos ≠ "bottom") :
    calculateCropArea ow oh tw th pos = calculateCropArea ow oh tw th "center" ∧
    (calculateCropArea ow oh tw th pos).top
      = jsRound (((oh : ℚ) - ((jsRound ((ow : ℚ) / ((tw : ℚ) / (th : ℚ)))) : ℚ)) / 2) := by
  have hnw : ¬((ow : ℚ) / (oh : ℚ) > (tw : ℚ) / (th : ℚ)) := not_lt.mpr hle
  have hchle := tall_cropHeight_le_oh hoh htw hth hle
  have hcen0 : 0 ≤ jsRound (((oh : ℚ) - ((jsRound ((ow : ℚ) / ((tw : ℚ) / (th : ℚ)))) : ℚ)) / 2) := by
    apply jsRound_nonneg
    have : ((jsRound ((ow : ℚ) / ((tw : ℚ) / (th : ℚ)))) : ℚ) ≤ (oh : ℚ) := by
      exact_mod_cast hchle
    linarith
  constructor
  · simp only [calculateCropArea]
    rw [if_neg hnw, if_neg hnw]
    rw [if_neg hpt, if_neg hpb]
    rw [if_neg (by decide : ¬("center" : String) = "top"),
      if_neg (by decide : ¬("center" : String) = "bottom")]
  · simp only [calculateCropArea]
    rw [if_neg hnw, if_neg hpt, if_neg hpb]
    simp [max_eq_right hcen0]

/-- Witness for C3 at `1000×500 → 800×600`, anchor `"center"`. -/
theorem crop_area_wider_case_witness :
    ((0 : Nat) < 1000 ∧ (0 : Nat) < 500 ∧ (0 : Nat) < 800 ∧ (0 : Nat) < 600 ∧
      ((1000 : ℚ) / (500 : ℚ) > (800 : ℚ) / (600 : ℚ))) ∧
    ((calculateCropArea 1000 500 800 600 "center").height = ((500 : Nat) : Int) ∧
      (calculateCropArea 1000 500 800 600 "center").width
        = jsRound (((500 : Nat) : ℚ) * (((800 : Nat) : ℚ) / ((600 : Nat) : ℚ))) ∧
      (calculateCropArea 1000 500 800 600 "center").left
        = jsRound ((((1000 : Nat) : ℚ)
            - ((jsRound (((500 : Nat) : ℚ) * (((800 : Nat) : ℚ) / ((600 : Nat) : ℚ)))) : ℚ)) / 2) ∧
      (calculateCropArea 1000 500 800 600 "center").top = 0) :=
  ⟨⟨by norm_num, by norm_num, by norm_num, by norm_num, by norm_num⟩,
    crop_area_wider_case 1000 500 800 600 "center"
      (by norm_num) (by norm_num) (by norm_num) (by norm_num) (by push_cast; norm_num)⟩

/-- Witness for C4 at `600×900 → 800×600`. -/
theorem crop_area_taller_case_witness :
    ((0 : Nat) < 600 ∧ (0 : Nat) < 900 ∧ (0 : Nat) < 800 ∧ (0 : Nat) < 600 ∧
      ((600 : ℚ) / (900 : ℚ) ≤ (800 : ℚ) / (600 : ℚ))) ∧
    ((∀ pos : String,
        (calculateCropArea 600 900 800 600 pos).width = ((600 : Nat) : Int) ∧
        (calculateCropArea 600 900 800 600 pos).height
          = jsRound (((600 : Nat) : ℚ) / (((800 : Nat) : ℚ) / ((600 : Nat) : ℚ)))) ∧
      (calculateCropArea 600 900 800 600 "top").top = 0 ∧
      (calculateCropArea 600 900 800 600 "bottom").top
        = ((900 : Nat) : Int) - jsRound (((600 : Nat) : ℚ) / (((800 : Nat) : ℚ) / ((600 : Nat) : ℚ))) ∧
      (calculateCropArea 600 900 800 600 "center").top
        = jsRound ((((900 : Nat) : ℚ)
            - ((jsRound (((600 : Nat) : ℚ) / (((800 : Nat) : ℚ) / ((600 : Nat) : ℚ)))) : ℚ)) / 2) ∧
      (∀ p₁ p₂ : String,
        (calculateCropArea 600 900 800 600 p₁).left = (calculateCropArea 600 900 800 600 p₂).left ∧
        (calculateCropArea 600 900 800 600 p₁).width = (calculateCropArea 600 900 800 600 p₂).width ∧
        (calculateCropArea 600 900 800 600 p₁).height = (calculateCropArea 600 900 800 600 p₂).height)) :=
  ⟨⟨by norm_num, by norm_num, by norm_num, by norm_num, by norm_num⟩,
    crop_area_taller_case 600 900 800 600
      (by norm_num) (by norm_num) (by norm_num) (by norm_num) (by push_cast; norm_num)⟩

/-- Witness for C5 at `321×123 → 77×55`, anchor `"bottom"`. -/
theorem crop_area_in_bounds_witness :
    ((0 : Nat) < 321 ∧ (0 : Nat) < 123 ∧ (0 : Nat) < 77 ∧ (0 : Nat) < 55) ∧
    (0 ≤ (calculateCropArea 321 123 77 55 "bottom").left ∧
      0 ≤ (calculateCropArea 321 123 77 55 "bottom").top ∧
      0 ≤ (calculateCropArea 321 123 77 55 "bottom").width ∧
      0 ≤ (calculateCropArea 321 123 77 55 "bottom").height ∧
      (calculateCropArea 321 123 77 55 "bottom").left
          + (calculateCropArea 321 123 77 55 "bottom").width ≤ ((321 : Nat) : Int) ∧
      (calculateCropArea 321 123 77 55 "bottom").top
          + (calculateCropArea 321 123 77 55 "bottom").height ≤ ((123 : Nat) : Int)) :=
  ⟨⟨by norm_num, by norm_num, by norm_num, by norm_num⟩,
    crop_area_in_bounds 321 123 77 55 "bottom"
      (by norm_num) (by norm_num) (by norm_num) (by norm_num)⟩

/-- Witness for C10 at anchor `"middle"` (an arbitrary invalid anchor). -/
theorem crop_area_unknown_anchor_witness :
    ((0 : Nat) < 600 ∧ (0 : Nat) < 900 ∧ (0 : Nat) < 800 ∧ (0 : Nat) < 600 ∧
      ((600 : ℚ) / (900 : ℚ) ≤ (800 : ℚ) / (600 : ℚ)) ∧
      ("middle" : String) ≠ "top" ∧ ("middle" : String) ≠ "bottom") ∧
    (calculateCropArea 600 900 800 600 "middle" = calculateCropArea 600 900 800 600 "center" ∧
      (calculateCropArea 600 900 800 600 "middle").top
        = jsRound ((((900 : Nat) : ℚ)
            - ((jsRound (((600 : Nat) : ℚ) / (((800 : Nat) : ℚ) / ((600 : Nat) : ℚ)))) : ℚ)) / 2)) :=
  ⟨⟨by norm_num, by norm_num, by norm_num, by norm_num, by norm_num, by decide, by decide⟩,
    crop_area_unknown_anchor 600 900 800 600 "middle"
      (by norm_num) (by norm_num) (by norm_num) (by norm_num) (by push_cast; norm_num)
      (by decide) (by decide)⟩

/-! ### Partitioner (src/index.js, `processImage`, lines 380–412) -/

/-- One worker group as pushed onto `allWorkerGroups` by `processImage`.
The display-only `scaleName` and `expectedOutputs` fields (derived as
`x{scale}` and `files.length`) are omitted. -/
structure WorkGroup (α : Type*) where
  workerId : Nat
  scale : Nat
  /-- 1-based, the JS code stores `groupIndex + 1`. -/
  groupIndex : Nat
  files : List α
deriving DecidableEq

/-- The loop `for (i) { fileGroups[i % threadsPerScale].push(imageFiles[i]) }`,
with `i` the running file index and `gs` the accumulated group array. -/
def fileGroupsGo (t : Nat) : Nat → List α → List (List α) → List (List α)
  | _, [], gs => gs
  | i, x :: xs, gs => fileGroupsGo t (i + 1) xs (gs.set (i % t) (gs.getD (i % t) [] ++ [x]))

/-- The per-scale round-robin file groups built by `processImage`, starting
from `threadsPerScale` empty groups. -/
def fileGroupsFor (files : List α) (t : Nat) : List (List α) :=
  fileGroupsGo t 0 files (List.replicate t [])

/-- The non-empty groups scheduled for one scale (`if (files.length > 0)`),
with the 1-based `groupIndex` recorded by the JS code. -/
def scheduledGroups (files : List α) (t : Nat) (scale : Nat) : List (WorkGroup α) :=
  ((fileGroupsFor files t).enum.filter (fun p => !p.2.isEmpty)).map
    (fun p => { workerId := 0, scale := scale, groupIndex := p.1 + 1, files := p.2 })

/-- `allWorkerGroups`: groups for every scale in order, with `workerId`
assigned by the running counter `globalWorkerId` starting at 1. -/
def allWorkerGroups (files : List α) (scales : List Nat) (t : Nat) : List (WorkGroup α) :=
  ((scales.flatMap (fun s => scheduledGroups files t s)).enum).map
    (fun p => { p.2 with workerId := p.1 + 1 })

/-- The `(file, scale)` work units carried by one group. -/
def groupUnits (g : WorkGroup α) : List (α × Nat) := g.files.map (fun f => (f, g.scale))

lemma fileGroupsGo_length (t : Nat) :
    ∀ (files : List α) (i : Nat) (gs : List (List α)),
      (fileGroupsGo t i files gs).length = gs.length := by
  intro files
  induction files with
  | nil => intro i gs; rfl
  | cons x xs ih => intro i gs; rw [fileGroupsGo, ih]; simp

lemma fileGroupsGo_getD {t : Nat} (files : List α) :
    ∀ (i : Nat) (gs : List (List α)), gs.length = t → ∀ j : Nat, j < t →
      (fileGroupsGo t i files gs).getD j []
        = gs.getD j [] ++ (((List.enumFrom i files).filter (fun p => p.1 % t == j)).map Prod.snd) := by
  induction files with
  | nil => intro i gs _ j _; simp [fileGroupsGo]
  | cons x xs ih =>
    intro i gs hgs j hj
    rw [fileGroupsGo, ih (i + 1) _ (by simp [hgs]) j hj, List.enumFrom_cons]
    by_cases hij : i % t = j
    · have hbeq : (i % t == j) = true := by simpa using hij
      have hlt : j < gs.length := by omega
      have hset : (gs.set (i % t) (gs.getD (i % t) [] ++ [x])).getD j [] = gs.getD j [] ++ [x] := by
        rw [hij]
        simp [List.getD_eq_getElem?_getD, List.getElem?_set_self hlt]
      rw [hset]
      simp [List.filter_cons, hbeq]
    · have hbeq : (i % t == j) = false := by simpa using hij
      have hset : (gs.set (i % t) (gs.getD (i % t) [] ++ [x])).getD j [] = gs.getD j [] := by
        simp [List.getD_eq_getElem?_getD, List.getElem?_set_ne hij]
      rw [hset]
      simp [List.filter_cons, hbeq]

lemma length_fileGroupsFor (files : List α) (t : Nat) :
    (fileGroupsFor files t).length = t := by
  rw [fileGroupsFor, fileGroupsGo_length]; simp

lemma fileGroupsFor_getD (files : List α) {t j : Nat} (hj : j < t) :
    (fileGroupsFor files t).getD j []
      = ((files.enum.filter (fun p => p.1 % t == j)).map Prod.snd) := by
  rw [fileGroupsFor, fileGroupsGo_getD files 0 _ (by simp) j hj]
  simp [List.enum]

/-- The file at index `i` lands in the round-robin group at position
`i % threadsPerScale`. -/
lemma get_mem_fileGroupsFor {t : Nat} (ht : 0 < t) (files : List α) (i : Nat)
    (h : i < files.length) :
    files.get ⟨i, h⟩ ∈ (fileGroupsFor files t).getD (i % t) [] := by
  rw [fileGroupsFor_getD files (Nat.mod_lt i ht)]
  apply List.mem_map.mpr
  refine ⟨(i, files.get ⟨i, h⟩), ?_, rfl⟩
  apply List.mem_filter.mpr
  constructor
  · exact List.mk_mem_enum_iff_getElem?.mpr (by simp [List.getElem?_eq_getElem h])
  · simp

lemma flatten_set_perm :
    ∀ (gs : List (List α)) (k : Nat), k < gs.length → ∀ x : α,
      (gs.set k (gs.getD k [] ++ [x])).flatten ~ gs.flatten ++ [x] := by
  intro gs
  induction gs with
  | nil => intro k hk x; simp at hk
  | cons g gs' ih =>
    intro k hk x
    cases k with
    | zero =>
      simp only [List.set_cons_zero, List.getD_cons_zero, List.flatten_cons]
      calc (g ++ [x]) ++ gs'.flatten = g ++ ([x] ++ gs'.flatten) := by simp
        _ ~ g ++ (gs'.flatten ++ [x]) := List.Perm.append_left g List.perm_append_comm
        _ = (g ++ gs'.flatten) ++ [x] := by simp
    | succ k' =>
      simp only [List.set_cons_succ, List.getD_cons_succ, List.flatten_cons]
      have hk' : k' < gs'.length := by simpa using hk
      calc g ++ (gs'.set k' (gs'.getD k' [] ++ [x])).flatten
          ~ g ++ (gs'.flatten ++ [x]) := List.Perm.append_left g (ih k' hk' x)
        _ = (g ++ gs'.flatten) ++ [x] := by simp

lemma fileGroupsGo_flatten_perm {t : Nat} (ht : 0 < t) :
    ∀ (files : List α) (i : Nat) (gs : List (List α)), gs.length = t →
      (fileGroupsGo t i files gs).flatten ~ gs.flatten ++ files := by
  intro files
  induction files with
  | nil => intro i gs _; simp [fileGroupsGo]
  | cons x xs ih =>
    intro i gs hgs
    have hk : i % t < gs.length := by rw [hgs]; exact Nat.mod_lt i ht
    rw [fileGroupsGo]
    calc (fileGroupsGo t (i + 1) xs (gs.set (i % t) (gs.getD (i % t) [] ++ [x]))).flatten
        ~ (gs.set (i % t) (gs.getD (i % t) [] ++ [x])).flatten ++ xs :=
          ih (i + 1) _ (by simp [hgs])
      _ ~ (gs.flatten ++ [x]) ++ xs := (flatten_set_perm gs (i % t) hk x).append_right xs
      _ = gs.flatten ++ (x :: xs) := by simp

/-- The round-robin groups together hold exactly the input files. -/
lemma fileGroupsFor_flatten_perm {t : Nat} (ht : 0 < t) (files : List α) :
    (fileGroupsFor files t).flatten ~ files := by
  have h := fileGroupsGo_flatten_perm ht files 0 (List.replicate t []) (by simp)
  simpa [fileGroupsFor] using h

lemma mem_scheduledGroups_elim {files : List α} {t s : Nat} {g : WorkGroup α}
    (hg : g ∈ scheduledGroups files t s) :
    g.files ≠ [] ∧ g.scale = s ∧ ∃ j, j < t ∧ g.groupIndex = j + 1 ∧
      g.files = (fileGroupsFor files t).getD j [] := by
  rw [scheduledGroups] at hg
  obtain ⟨p, hp, rfl⟩ := List.mem_map.mp hg
  obtain ⟨hpe, hne⟩ := List.mem_filter.mp hp
  obtain ⟨j, l⟩ := p
  have hget : (fileGroupsFor files t)[j]? = some l := List.mk_mem_enum_iff_getElem?.mp hpe
  have hjlt : j < t := by
    have := List.getElem?_eq_some_iff.mp hget
    obtain ⟨hlt, -⟩ := this
    rwa [length_fileGroupsFor] at hlt
  refine ⟨?_, rfl, j, hjlt, rfl, ?_⟩
  · simpa using hne
  · simp [List.getD_eq_getElem?_getD, hget]

lemma mem_scheduledGroups_intro {files : List α} {t : Nat} (s : Nat) {j : Nat} (hj : j < t)
    (hne : (fileGroupsFor files t).getD j [] ≠ []) :
    ({ workerId := 0, scale := s, groupIndex := j + 1,
       files := (fileGroupsFor files t).getD j [] } : WorkGroup α) ∈ scheduledGroups files t s := by
  rw [scheduledGroups]
  apply List.mem_map.mpr
  refine ⟨(j, (fileGroupsFor files t).getD j []), ?_, rfl⟩
  apply List.mem_filter.mpr
  have hjl : j < (fileGroupsFor files t).length := by rwa [length_fileGroupsFor]
  constructor
  · apply List.mk_mem_enum_iff_getElem?.mpr
    simp [List.getD_eq_getElem?_getD, List.getElem?_eq_getElem hjl]
  · simpa using hne

lemma mem_allWorkerGroups_elim {files : List α} {scales : List Nat} {t : Nat} {g : WorkGroup α}
    (hg : g ∈ allWorkerGroups files scales t) :
    ∃ s ∈ scales, ∃ g₀ ∈ scheduledGroups files t s,
      g.scale = g₀.scale ∧ g.groupIndex = g₀.groupIndex ∧ g.files = g₀.files := by
  rw [allWorkerGroups] at hg
  obtain ⟨p, hp, rfl⟩ := List.mem_map.mp hg
  have hmem : p.2 ∈ scales.flatMap (fun s => scheduledGroups files t s) := by
    obtain ⟨j, l⟩ := p
    exact List.getElem?_mem (List.mk_mem_enum_iff_getElem?.mp hp)
  obtain ⟨s, hs, hg₀⟩ := List.mem_flatMap.mp hmem
  exact ⟨s, hs, p.2, hg₀, rfl, rfl, rfl⟩

lemma mem_allWorkerGroups_intro {files : List α} {scales : List Nat} {t : Nat}
    {g₀ : WorkGroup α} (hg₀ : g₀ ∈ scales.flatMap (fun s => scheduledGroups files t s)) :
    ∃ g ∈ allWorkerGroups files scales t,
      g.scale = g₀.scale ∧ g.groupIndex = g₀.groupIndex ∧ g.files = g₀.files := by
  obtain ⟨k, hk, hget⟩ := List.getElem_of_mem hg₀
  refine ⟨{ g₀ with workerId := k + 1 }, ?_, rfl, rfl, rfl⟩
  rw [allWorkerGroups]
  apply List.mem_map.mpr
  refine ⟨(k, g₀), ?_, rfl⟩
  exact List.mk_mem_enum_iff_getElem?.mpr (by simp [List.getElem?_eq_getElem hk, hget])

lemma groupUnits_workerId (g : WorkGroup α) (w : Nat) :
    groupUnits { g with workerId := w } = groupUnits g := rfl

/-- Filtering by a property of the payload commutes with `enum`. -/
lemma enumFrom_filter_snd_map_snd (q : α → Bool) :
    ∀ (l : List α) (i : Nat),
      ((List.enumFrom i l).filter (fun p => q p.2)).map Prod.snd = l.filter q := by
  intro l
  induction l with
  | nil => intro i; rfl
  | cons x xs ih =>
    intro i
    rw [List.enumFrom_cons]
    by_cases hx : q x
    · simp [List.filter_cons, hx, ih (i + 1)]
    · simp [List.filter_cons, hx, ih (i + 1)]

lemma enum_filter_snd_map_snd (q : α → Bool) (l : List α) :
    ((l.enum.filter (fun p => q p.2)).map Prod.snd) = l.filter q := by
  rw [List.enum]
  exact enumFrom_filter_snd_map_snd q l 0

/-- The units of one scale's scheduled groups are exactly the files paired
with that scale, up to order. -/
lemma scheduledGroups_units_perm {t : Nat} (ht : 0 < t) (files : List α) (s : Nat) :
    (scheduledGroups files t s).flatMap groupUnits ~ files.map (fun f => (f, s)) := by
  rw [scheduledGroups, List.flatMap_map]
  have h1 : (((fileGroupsFor files t).enum.filter (fun p => !p.2.isEmpty)).flatMap
        (fun p => groupUnits { workerId := 0, scale := s, groupIndex := p.1 + 1, files := p.2 }))
      = (((fileGroupsFor files t).enum.filter (fun p => !p.2.isEmpty)).map Prod.snd).flatMap
        (fun l => l.map (fun f => (f, s))) := by
    rw [List.flatMap_map]
    rfl
  rw [h1, enum_filter_snd_map_snd (fun l => !l.isEmpty) (fileGroupsFor files t)]
  have h2 : ((fileGroupsFor files t).filter (fun l => !l.isEmpty)).flatMap
        (fun l => l.map (fun f => (f, s)))
      = (((fileGroupsFor files t).filter (fun l => !l.isEmpty)).flatten).map
        (fun f => (f, s)) := by
    rw [List.map_flatten, List.flatMap]
  rw [h2, List.flatten_filter_not_isEmpty]
  exact (fileGroupsFor_flatten_perm ht files).map _

lemma flatMap_perm_congr (l : List α) (f g : α → List β)
    (h : ∀ a ∈ l, f a ~ g a) : l.flatMap f ~ l.flatMap g := by
  induction l with
  | nil => rfl
  | cons x xs ih =>
    simp only [List.flatMap_cons]
    exact (h x (by simp)).append (ih (fun a ha => h a (List.mem_cons_of_mem x ha)))

/-- All units of `allWorkerGroups`, up to order: the full cross product. -/
lemma allWorkerGroups_units_perm {t : Nat} (ht : 0 < t) (files : List α) (scales : List Nat) :
    (allWorkerGroups files scales t).flatMap groupUnits
      ~ scales.flatMap (fun s => files.map (fun f => (f, s))) := by
  rw [allWorkerGroups]
  have h1 : ((scales.flatMap (fun s => scheduledGroups files t s)).enum.map
        (fun p => { p.2 with workerId := p.1 + 1 })).flatMap groupUnits
      = ((scales.flatMap (fun s => scheduledGroups files t s)).enum.map Prod.snd).flatMap
        groupUnits := by
    rw [List.flatMap_map, List.flatMap_map]
    apply List.flatMap_congr
    intro p _
    exact groupUnits_workerId p.2 (p.1 + 1)
  rw [h1, List.enum_map_snd, List.flatMap_assoc]
  exact flatMap_perm_congr scales _ _ (fun s _ => scheduledGroups_units_perm ht files s)

lemma perm_count_eq {β : Type*} [BEq β] {l₁ l₂ : List β} (h : List.Perm l₁ l₂) (b : β) :
    l₁.count b = l₂.count b :=
  h.countP_eq _

lemma count_map_pair [DecidableEq α] (files : List α) (f : α) (s s' : Nat) :
    (files.map (fun x => (x, s'))).count (f, s)
      = if s' = s then files.count f else 0 := by
  induction files with
  | nil => simp
  | cons x xs ih =>
    simp only [List.map_cons, List.count_cons, ih, beq_iff_eq, Prod.mk.injEq]
    by_cases hx : x = f <;> by_cases hs : s' = s <;> simp [hx, hs]

lemma count_crossProduct [DecidableEq α] {files : List α} {scales : List Nat}
    (hf : files.Nodup) (hs : scales.Nodup) (f : α) (s : Nat) :
    (scales.flatMap (fun s' => files.map (fun x => (x, s')))).count (f, s)
      = if f ∈ files ∧ s ∈ scales then 1 else 0 := by
  induction scales with
  | nil => simp
  | cons s' rest ih =>
    obtain ⟨hs1, hs2⟩ := List.nodup_cons.mp hs
    rw [List.flatMap_cons, List.count_append, count_map_pair files f s s', ih hs2]
    by_cases hss : s' = s
    · subst hss
      have hrest : ¬(f ∈ files ∧ s' ∈ rest) := fun h => hs1 h.2
      by_cases hfm : f ∈ files
      · simp [hfm, hrest, List.count_eq_one_of_mem hf hfm, hs1]
      · simp [hfm, List.count_eq_zero_of_not_mem hfm]
    · have hmem : s ∈ s' :: rest ↔ s ∈ rest := by
        constructor
        · intro h
          rcases List.mem_cons.mp h with h | h
          · exact absurd h.symm hss
          · exact h
        · exact List.mem_cons_of_mem s'
      by_cases hin : f ∈ files ∧ s ∈ rest <;> simp [hss, hin, hmem]

/-- C1: the partitioner in `processImage` distributes each file of each scale
round-robin by file index, schedules exactly the non-empty groups, keeps each
group scale-homogeneous, and covers every `(file, scale)` pair exactly once. -/
theorem processImage_partition [DecidableEq α] (files : List α) (scales : List Nat)
    (t : Nat) (ht : 0 < t) :
    (∀ i (h : i < files.length),
        files.get ⟨i, h⟩ ∈ (fileGroupsFor files t).getD (i % t) []) ∧
    (∀ g ∈ allWorkerGroups files scales t,
        g.files ≠ [] ∧ g.scale ∈ scales ∧
        g.files = (fileGroupsFor files t).getD (g.groupIndex - 1) [] ∧
        ∀ u ∈ groupUnits g, u.2 = g.scale) ∧
    (∀ s ∈ scales, ∀ j, j < t → (fileGroupsFor files t).getD j [] ≠ [] →
        ∃ g ∈ allWorkerGroups files scales t, g.scale = s ∧ g.groupIndex = j + 1 ∧
          g.files = (fileGroupsFor files t).getD j []) ∧
    (files.Nodup → scales.Nodup →
        ∀ f s, ((allWorkerGroups files scales t).flatMap groupUnits).count (f, s)
          = if f ∈ files ∧ s ∈ scales then 1 else 0) := by
  refine ⟨fun i h => get_mem_fileGroupsFor ht files i h, ?_, ?_, ?_⟩
  · intro g hg
    obtain ⟨s, hs, g₀, hg₀, hsc, hgi, hfl⟩ := mem_allWorkerGroups_elim hg
    obtain ⟨hne, hsc₀, j, hj, hgi₀, hfl₀⟩ := mem_scheduledGroups_elim hg₀
    refine ⟨by rw [hfl]; exact hne, by rw [hsc, hsc₀]; exact hs, ?_, ?_⟩
    · rw [hfl, hfl₀, hgi, hgi₀]; simp
    · intro u hu
      rw [groupUnits] at hu
      obtain ⟨x, -, rfl⟩ := List.mem_map.mp hu
      rfl
  · intro s hs j hj hne
    have h₀ := mem_scheduledGroups_intro s hj hne
    have hbind := List.mem_flatMap.mpr ⟨s, hs, h₀⟩
    obtain ⟨g, hg, hsc, hgi, hfl⟩ := mem_allWorkerGroups_intro hbind
    exact ⟨g, hg, hsc, hgi, hfl⟩
  · intro hf hsnd f s
    rw [perm_count_eq (allWorkerGroups_units_perm ht files scales) (f, s)]
    exact count_crossProduct hf hsnd f s

/-- Witness for C1: 5 files, scales `[1, 2]`, `threadsPerScale = 2`. -/
theorem processImage_partition_witness :
    (0 < 2) ∧
    ((∀ i (h : i < ([10, 20, 30, 40, 50] : List Nat).length),
        ([10, 20, 30, 40, 50] : List Nat).get ⟨i, h⟩
          ∈ (fileGroupsFor [10, 20, 30, 40, 50] 2).getD (i % 2) []) ∧
      (∀ g ∈ allWorkerGroups [10, 20, 30, 40, 50] [1, 2] 2,
        g.files ≠ [] ∧ g.scale ∈ [1, 2] ∧
        g.files = (fileGroupsFor [10, 20, 30, 40, 50] 2).getD (g.groupIndex - 1) [] ∧
        ∀ u ∈ groupUnits g, u.2 = g.scale) ∧
      (∀ s ∈ [1, 2], ∀ j, j < 2 → (fileGroupsFor [10, 20, 30, 40, 50] 2).getD j [] ≠ [] →
        ∃ g ∈ allWorkerGroups [10, 20, 30, 40, 50] [1, 2] 2, g.scale = s ∧ g.groupIndex = j + 1 ∧
          g.files = (fileGroupsFor [10, 20, 30, 40, 50] 2).getD j []) ∧
      (([10, 20, 30, 40, 50] : List Nat).Nodup → ([1, 2] : List Nat).Nodup →
        ∀ f s, ((allWorkerGroups [10, 20, 30, 40, 50] [1, 2] 2).flatMap groupUnits).count (f, s)
          = if f ∈ [10, 20, 30, 40, 50] ∧ s ∈ [1, 2] then 1 else 0)) :=
  ⟨by decide, processImage_partition [10, 20, 30, 40, 50] [1, 2] 2 (by decide)⟩

/-! ### Global progress (src/index.js, `main` lines 526–563, `processImage`
lines 463–467) -/

/-- One job as seen by `main`'s accounting loop: the enumerated files, the
configured scales, and the (already defaulted) `threadsPerScale`. -/
structure JobSpec (α : Type*) where
  files : List α
  scales : List Nat
  threadsPerScale : Nat

/-- `Math.ceil(imageFiles.length / threadsPerScale)` for positive
`threadsPerScale`. -/
def jsCeilDiv (n t : Nat) : Nat := (n + t - 1) / t

/-- `Math.min(filesForThisThread, Math.max(0, n - threadIndex * filesForThisThread))`;
truncated `Nat` subtraction is exactly the `Math.max(0, ·)` clamp. -/
def actualFilesFor (n t k : Nat) : Nat := min (jsCeilDiv n t) (n - k * jsCeilDiv n t)

/-- The contribution of one job to `totalProcessingUnits` in `main`: the two
nested loops over scales and thread indices, adding `actualFiles` when it is
positive. -/
def jobProcessingUnits (jb : JobSpec α) : Nat :=
  (jb.scales.map (fun _ =>
    ((List.range jb.threadsPerScale).map (fun k =>
      let a := actualFilesFor jb.files.length jb.threadsPerScale k
      if 0 < a then a else 0)).sum)).sum

/-- `totalProcessingUnits` accumulated over all jobs, which becomes
`globalProgress.total`. -/
def totalProcessingUnits (jobs : List (JobSpec α)) : Nat :=
  (jobs.map jobProcessingUnits).sum

/-- Every scheduled worker group of every job, in order. -/
def allGroups (jobs : List (JobSpec α)) : List (WorkGroup α) :=
  jobs.flatMap (fun jb => allWorkerGroups jb.files jb.scales jb.threadsPerScale)

/-- The file count of each scheduled group. -/
def groupSizes (jobs : List (JobSpec α)) : List Nat :=
  (allGroups jobs).map (fun g => g.files.length)

/-- `globalProgress.processed` after the groups listed in `trace` (indices
into `allGroups`, in completion order) have finished; each finished group adds
`group.files.length`, as in `globalProgress.processed += group.files.length`. -/
def processedAfter (sizes : List Nat) (trace : List Nat) : Nat :=
  (trace.map (fun i => sizes.getD i 0)).sum

lemma chunk_sum (c : Nat) :
    ∀ (t n : Nat), n ≤ c * t →
      ((List.range t).map (fun k => min c (n - k * c))).sum = n := by
  intro t
  induction t with
  | zero => intro n hn; simp at hn ⊢; omega
  | succ t ih =>
    intro n hn
    rw [List.range_succ_eq_map]
    simp only [List.map_cons, List.map_map, List.sum_cons]
    have hshift : ((List.range t).map (fun k => min c (n - (k + 1) * c))).sum
        = ((List.range t).map (fun k => min c ((n - c) - k * c))).sum := by
      congr 1
      apply List.map_congr_left
      intro k _
      have : n - (k + 1) * c = (n - c) - k * c := by
        rw [Nat.succ_mul]; omega
      rw [this]
    have hcomp : (fun k => min c (n - k * c)) ∘ (fun x => x + 1)
        = fun k => min c (n - (k + 1) * c) := rfl
    rw [hcomp, hshift, ih (n - c) (by rw [Nat.mul_succ] at hn; omega)]
    rw [Nat.mul_succ] at hn
    simp only [Nat.zero_mul, Nat.sub_zero]
    rcases Nat.le_total c n with h | h
    · rw [min_eq_left h]; omega
    · rw [min_eq_right h]; omega

lemma le_jsCeilDiv_mul (n t : Nat) (ht : 0 < t) : n ≤ jsCeilDiv n t * t := by
  unfold jsCeilDiv
  have h1 := Nat.div_add_mod (n + t - 1) t
  have h2 : (n + t - 1) % t < t := Nat.mod_lt _ ht
  generalize hq : (n + t - 1) / t = q at h1 ⊢
  generalize hr : (n + t - 1) % t = r at h1 h2
  have h3 : t * q = q * t := Nat.mul_comm t q
  rw [h3] at h1
  generalize hp : q * t = p at h1 ⊢
  omega

lemma range_actualFiles_sum {n t : Nat} (ht : 0 < t) :
    ((List.range t).map (fun k => actualFilesFor n t k)).sum = n := by
  unfold actualFilesFor
  exact chunk_sum (jsCeilDiv n t) t n (le_jsCeilDiv_mul n t ht)

/-- The per-thread ceiling accounting in `main` adds up to
`scales.length * files.length` for each job. -/
lemma jobProcessingUnits_eq (jb : JobSpec α) (ht : 0 < jb.threadsPerScale) :
    jobProcessingUnits jb = jb.scales.length * jb.files.length := by
  unfold jobProcessingUnits
  have h1 : ∀ k : Nat,
      (let a := actualFilesFor jb.files.length jb.threadsPerScale k;
        if 0 < a then a else 0)
        = actualFilesFor jb.files.length jb.threadsPerScale k := by
    intro k
    simp only []
    split <;> omega
  simp only [h1]
  rw [range_actualFiles_sum ht, List.map_const', List.sum_replicate, smul_eq_mul]

lemma scheduledGroups_sizes_sum {t : Nat} (ht : 0 < t) (files : List α) (s : Nat) :
    (((scheduledGroups files t s).map (fun g => g.files.length)).sum) = files.length := by
  have hperm := scheduledGroups_units_perm ht files s
  have h1 : ((scheduledGroups files t s).flatMap groupUnits).length
      = (files.map (fun f => (f, s))).length := hperm.length_eq
  rw [List.length_flatMap, List.length_map] at h1
  have h2 : (List.map (List.length ∘ groupUnits) (scheduledGroups files t s))
      = (scheduledGroups files t s).map (fun g => g.files.length) := by
    apply List.map_congr_left
    intro g _
    simp [groupUnits, Function.comp]
  rwa [h2] at h1

lemma flatMap_scheduled_sizes_sum {t : Nat} (ht : 0 < t) (files : List α) :
    ∀ scales : List Nat,
      (((scales.flatMap (fun s => scheduledGroups files t s)).map
          (fun g => g.files.length)).sum) = scales.length * files.length := by
  intro scales
  induction scales with
  | nil => simp
  | cons s rest ih =>
    rw [List.flatMap_cons, List.map_append, List.sum_append, ih,
      scheduledGroups_sizes_sum ht files s, List.length_cons]
    ring

lemma allWorkerGroups_sizes_sum {t : Nat} (ht : 0 < t) (files : List α) (scales : List Nat) :
    ((allWorkerGroups files scales t).map (fun g => g.files.length)).sum
      = scales.length * files.length := by
  rw [allWorkerGroups]
  have h1 : ((scales.flatMap (fun s => scheduledGroups files t s)).enum.map
        (fun p => { p.2 with workerId := p.1 + 1 })).map (fun g => g.files.length)
      = (scales.flatMap (fun s => scheduledGroups files t s)).map
        (fun g => g.files.length) := by
    rw [List.map_map]
    have h2 : ((fun g : WorkGroup α => g.files.length)
          ∘ fun p : Nat × WorkGroup α => { p.2 with workerId := p.1 + 1 })
        = (fun g : WorkGroup α => g.files.length) ∘ Prod.snd := rfl
    rw [h2, ← List.map_map, List.enum_map_snd]
  rw [h1]
  exact flatMap_scheduled_sizes_sum ht files scales

/-- C2 part (a): `globalProgress.total` equals the sum of the sizes of all
scheduled (non-empty) groups across all jobs. -/
lemma totalProcessingUnits_eq_sizes_sum {jobs : List (JobSpec α)}
    (hts : ∀ jb ∈ jobs, 0 < jb.threadsPerScale) :
    totalProcessingUnits jobs = (groupSizes jobs).sum := by
  unfold totalProcessingUnits groupSizes allGroups
  induction jobs with
  | nil => simp
  | cons jb rest ih =>
    rw [List.map_cons, List.sum_cons, List.flatMap_cons, List.map_append, List.sum_append]
    rw [jobProcessingUnits_eq jb (hts jb (by simp)),
      allWorkerGroups_sizes_sum (hts jb (by simp)) jb.files jb.scales,
      ih (fun j hj => hts j (List.mem_cons_of_mem jb hj))]

lemma mem_allGroups_files_ne_nil {jobs : List (JobSpec α)} {g : WorkGroup α}
    (hg : g ∈ allGroups jobs) : g.files ≠ [] := by
  obtain ⟨jb, -, hg'⟩ := List.mem_flatMap.mp hg
  obtain ⟨s, -, g₀, hg₀, -, -, hfl⟩ := mem_allWorkerGroups_elim hg'
  obtain ⟨hne, -⟩ := mem_scheduledGroups_elim hg₀
  rw [hfl]
  exact hne

lemma groupSizes_pos {jobs : List (JobSpec α)} :
    ∀ i, i < (groupSizes jobs).length → 0 < (groupSizes jobs).getD i 0 := by
  intro i hi
  unfold groupSizes at hi ⊢
  rw [List.length_map] at hi
  rw [List.getD_eq_getElem?_getD, List.getElem?_map, List.getElem?_eq_getElem hi]
  have hne := mem_allGroups_files_ne_nil (List.getElem_mem hi)
  simp only [Option.map_some', Option.getD_some]
  exact List.length_pos.mpr hne

lemma sum_getD_range (sizes : List Nat) :
    (Finset.range sizes.length).sum (fun i => sizes.getD i 0) = sizes.sum := by
  induction sizes with
  | nil => simp
  | cons x xs ih =>
    rw [List.length_cons, Finset.sum_range_succ']
    have h1 : ∀ i : Nat, (x :: xs).getD (i + 1) 0 = xs.getD i 0 := fun _ => rfl
    simp only [h1, ih, List.getD_cons_zero, List.sum_cons]
    omega

lemma processedAfter_le_sum {sizes : List Nat} {trace : List Nat}
    (hnd : trace.Nodup) (hlt : ∀ i ∈ trace, i < sizes.length) :
    processedAfter sizes trace ≤ sizes.sum := by
  unfold processedAfter
  rw [← List.sum_toFinset _ hnd, ← sum_getD_range sizes]
  apply Finset.sum_le_sum_of_subset
  intro i hi
  rw [Finset.mem_range]
  exact hlt i (List.mem_toFinset.mp hi)

lemma processedAfter_step (sizes : List Nat) (trace : List Nat) (k : Nat)
    (hk : k < trace.length) :
    processedAfter sizes (trace.take (k + 1))
      = processedAfter sizes (trace.take k) + sizes.getD (trace.get ⟨k, hk⟩) 0 := by
  unfold processedAfter
  rw [List.map_take, List.map_take]
  have hk' : k < (trace.map (fun i => sizes.getD i 0)).length := by
    rwa [List.length_map]
  rw [List.sum_take_succ _ k hk']
  congr 1
  simp

lemma processedAfter_eq_iff {sizes : List Nat} {trace : List Nat}
    (hnd : trace.Nodup) (hlt : ∀ i ∈ trace, i < sizes.length)
    (hpos : ∀ i, i < sizes.length → 0 < sizes.getD i 0) :
    processedAfter sizes trace = sizes.sum ↔ ∀ j, j < sizes.length → j ∈ trace := by
  unfold processedAfter
  rw [← List.sum_toFinset _ hnd, ← sum_getD_range sizes]
  have hsub : trace.toFinset ⊆ Finset.range sizes.length := by
    intro i hi
    rw [Finset.mem_range]
    exact hlt i (List.mem_toFinset.mp hi)
  constructor
  · intro heq j hj
    by_contra hjn
    have hlt2 : trace.toFinset.sum (fun i => sizes.getD i 0)
        < (Finset.range sizes.length).sum (fun i => sizes.getD i 0) := by
      apply Finset.sum_lt_sum_of_subset hsub (Finset.mem_range.mpr hj)
      · rw [List.mem_toFinset]; exact hjn
      · exact hpos j hj
      · intro m _ _; exact Nat.zero_le _
    omega
  · intro hall
    have hset : trace.toFinset = Finset.range sizes.length := by
      apply Finset.ext
      intro i
      rw [List.mem_toFinset, Finset.mem_range]
      exact ⟨fun h => hlt i h, fun h => hall i h⟩
    rw [hset]

/-- C2: `total` (the per-thread ceiling formula in `main`) equals the sum of
all scheduled group sizes over all jobs; along any completion order,
`processed` grows by exactly one finished group's file count at a time, never
exceeds `total`, and reaches `total` exactly when every group has finished. -/
theorem globalProgress_invariants (jobs : List (JobSpec α))
    (hts : ∀ jb ∈ jobs, 0 < jb.threadsPerScale)
    (trace : List Nat) (hnd : trace.Nodup)
    (hvalid : ∀ i ∈ trace, i < (groupSizes jobs).length) :
    totalProcessingUnits jobs = (groupSizes jobs).sum ∧
    (∀ k (hk : k < trace.length),
      processedAfter (groupSizes jobs) (trace.take (k + 1))
        = processedAfter (groupSizes jobs) (trace.take k)
          + (groupSizes jobs).getD (trace.get ⟨k, hk⟩) 0) ∧
    (∀ k : Nat, processedAfter (groupSizes jobs) (trace.take k)
        ≤ processedAfter (groupSizes jobs) (trace.take (k + 1))) ∧
    processedAfter (groupSizes jobs) trace ≤ totalProcessingUnits jobs ∧
    (processedAfter (groupSizes jobs) trace = totalProcessingUnits jobs
      ↔ ∀ j, j < (groupSizes jobs).length → j ∈ trace) := by
  have htotal := totalProcessingUnits_eq_sizes_sum hts
  refine ⟨htotal, fun k hk => processedAfter_step _ trace k hk, ?_, ?_, ?_⟩
  · intro k
    rcases Nat.lt_or_ge k trace.length with hk | hk
    · rw [processedAfter_step _ trace k hk]
      omega
    · rw [List.take_of_length_le hk, List.take_of_length_le (by omega)]
  · rw [htotal]
    exact processedAfter_le_sum hnd hvalid
  · rw [htotal]
    exact processedAfter_eq_iff hnd hvalid groupSizes_pos

/-- Witness for C2: one job with 5 files, scales `[1, 2]`, fan-out 2, and the
completion order `[2, 0, 3, 1]` of its four groups. -/
theorem globalProgress_invariants_witness :
    ((∀ jb ∈ [(⟨[10, 20, 30, 40, 50], [1, 2], 2⟩ : JobSpec Nat)], 0 < jb.threadsPerScale) ∧
      ([2, 0, 3, 1] : List Nat).Nodup ∧
      (∀ i ∈ ([2, 0, 3, 1] : List Nat),
        i < (groupSizes [(⟨[10, 20, 30, 40, 50], [1, 2], 2⟩ : JobSpec Nat)]).length)) ∧
    (totalProcessingUnits [(⟨[10, 20, 30, 40, 50], [1, 2], 2⟩ : JobSpec Nat)]
        = (groupSizes [(⟨[10, 20, 30, 40, 50], [1, 2], 2⟩ : JobSpec Nat)]).sum ∧
      (∀ k (hk : k < ([2, 0, 3, 1] : List Nat).length),
        processedAfter (groupSizes [(⟨[10, 20, 30, 40, 50], [1, 2], 2⟩ : JobSpec Nat)])
            (([2, 0, 3, 1] : List Nat).take (k + 1))
          = processedAfter (groupSizes [(⟨[10, 20, 30, 40, 50], [1, 2], 2⟩ : JobSpec Nat)])
              (([2, 0, 3, 1] : List Nat).take k)
            + (groupSizes [(⟨[10, 20, 30, 40, 50], [1, 2], 2⟩ : JobSpec Nat)]).getD
                (([2, 0, 3, 1] : List Nat).get ⟨k, hk⟩) 0) ∧
      (∀ k : Nat,
        processedAfter (groupSizes [(⟨[10, 20, 30, 40, 50], [1, 2], 2⟩ : JobSpec Nat)])
            (([2, 0, 3, 1] : List Nat).take k)
          ≤ processedAfter (groupSizes [(⟨[10, 20, 30, 40, 50], [1, 2], 2⟩ : JobSpec Nat)])
              (([2, 0, 3, 1] : List Nat).take (k + 1))) ∧
      processedAfter (groupSizes [(⟨[10, 20, 30, 40, 50], [1, 2], 2⟩ : JobSpec Nat)])
          ([2, 0, 3, 1] : List Nat)
        ≤ totalProcessingUnits [(⟨[10, 20, 30, 40, 50], [1, 2], 2⟩ : JobSpec Nat)] ∧
      (processedAfter (groupSizes [(⟨[10, 20, 30, 40, 50], [1, 2], 2⟩ : JobSpec Nat)])
            ([2, 0, 3, 1] : List Nat)
          = totalProcessingUnits [(⟨[10, 20, 30, 40, 50], [1, 2], 2⟩ : JobSpec Nat)]
        ↔ ∀ j, j < (groupSizes [(⟨[10, 20, 30, 40, 50], [1, 2], 2⟩ : JobSpec Nat)]).length
            → j ∈ ([2, 0, 3, 1] : List Nat))) :=
  ⟨⟨by decide, by decide, by decide⟩,
    globalProgress_invariants [(⟨[10, 20, 30, 40, 50], [1, 2], 2⟩ : JobSpec Nat)]
      (by decide) [2, 0, 3, 1] (by decide) (by decide)⟩

/-! ### Worker execution (src/index.js, worker body lines 126–148 and
`processImageSingleOptimized` lines 286–357) -/

/-- The result record built by `processImageSingleOptimized` for one file. -/
structure WorkUnitResult (α : Type*) where
  file : α
  success : Bool
  generatedFiles : Nat
  error : Option String
deriving DecidableEq

/-- The sharp/filesystem boundary for one worker as an oracle per input path:
`readAndDecode` is `fs.readFileSync` + `sharp(imageBuffer).metadata()` (the
outer `try`), `transform` is the `extract/resize/webp/toFile` pipeline (the
inner `try`). -/
structure AdapterEnv (α : Type*) where
  readAndDecode : α → Except String Unit
  transform : α → Except String Unit

/-- `const scale = scales[0]; if (!scale) ...` — JS treats both a missing
element and the number `0` as falsy. -/
def headScale (scales : List Nat) : Option Nat :=
  match scales with
  | [] => none
  | s :: _ => if s = 0 then none else some s

/-- Embedding of `processImageSingleOptimized`: every failure path returns a
record with `success := false` and the error message; only a fully successful
unit reports `generatedFiles := 1`. -/
def processImageSingleOptimized (env : AdapterEnv α) (scales : List Nat) (inputPath : α) :
    WorkUnitResult α :=
  match headScale scales with
  | none =>
    { file := inputPath, success := false, generatedFiles := 0,
      error := some "未找到倍数配置" }
  | some _ =>
    match env.readAndDecode inputPath with
    | Except.error e =>
      { file := inputPath, success := false, generatedFiles := 0, error := some e }
    | Except.ok _ =>
      match env.transform inputPath with
      | Except.error e =>
        { file := inputPath, success := false, generatedFiles := 0, error := some e }
      | Except.ok _ =>
        { file := inputPath, success := true, generatedFiles := 1, error := none }

/-- The worker-thread loop: one result per file of the group, in order. -/
def runWorkerGroup (env : AdapterEnv α) (scales : List Nat) (files : List α) :
    List (WorkUnitResult α) :=
  files.map (processImageSingleOptimized env scales)

lemma processImage_single_success_iff (env : AdapterEnv α) (scales : List Nat)
    (s : Nat) (hs : headScale scales = some s) (f : α) :
    (!(processImageSingleOptimized env scales f).success)
      = (!(env.readAndDecode f).isOk || !(env.transform f).isOk) := by
  rw [processImageSingleOptimized, hs]
  cases hr : env.readAndDecode f with
  | error e => simp [Except.isOk, Except.toBool]
  | ok u =>
    cases ht : env.transform f with
    | error e => simp [Except.isOk, Except.toBool]
    | ok v => simp [Except.isOk, Except.toBool]

/-- C6: the worker records one `WorkUnitResult` per unit of its group, in
order; a unit whose read/decode or transform fails yields `success = false`
with the error message, and processing continues — the group's result list
always has exactly one entry per unit, and the failed results are exactly the
failing units. -/
theorem worker_failure_isolation (env : AdapterEnv α) (scales : List Nat) (files : List α)
    (s : Nat) (hs : headScale scales = some s) :
    (runWorkerGroup env scales files).length = files.length ∧
    (∀ i (h : i < files.length), ∃ hr : i < (runWorkerGroup env scales files).length,
      ((runWorkerGroup env scales files).get ⟨i, hr⟩).file = files.get ⟨i, h⟩ ∧
      (∀ e, env.readAndDecode (files.get ⟨i, h⟩) = Except.error e →
        (runWorkerGroup env scales files).get ⟨i, hr⟩
          = { file := files.get ⟨i, h⟩, success := false, generatedFiles := 0,
              error := some e }) ∧
      (∀ e, env.readAndDecode (files.get ⟨i, h⟩) = Except.ok () →
          env.transform (files.get ⟨i, h⟩) = Except.error e →
        (runWorkerGroup env scales files).get ⟨i, hr⟩
          = { file := files.get ⟨i, h⟩, success := false, generatedFiles := 0,
              error := some e }) ∧
      (env.readAndDecode (files.get ⟨i, h⟩) = Except.ok () →
          env.transform (files.get ⟨i, h⟩) = Except.ok () →
        (runWorkerGroup env scales files).get ⟨i, hr⟩
          = { file := files.get ⟨i, h⟩, success := true, generatedFiles := 1,
              error := none })) ∧
    (runWorkerGroup env scales files).countP (fun r => !r.success)
      = files.countP (fun f => !(env.readAndDecode f).isOk || !(env.transform f).isOk) := by
  refine ⟨List.length_map files _, ?_, ?_⟩
  · intro i h
    have hr : i < (runWorkerGroup env scales files).length := by
      rw [runWorkerGroup]
      rwa [List.length_map]
    refine ⟨hr, ?_, ?_, ?_, ?_⟩
    · show ((files.map (processImageSingleOptimized env scales)).get ⟨i, hr⟩).file = _
      rw [List.get_map]
      rw [processImageSingleOptimized, hs]
      cases henv : env.readAndDecode (files.get ⟨i, h⟩) with
      | error e => rfl
      | ok u =>
        cases ht : env.transform (files.get ⟨i, h⟩) with
        | error e => rfl
        | ok v => rfl
    · intro e he
      show ((files.map (processImageSingleOptimized env scales)).get ⟨i, hr⟩) = _
      rw [List.get_map, processImageSingleOptimized, hs, he]
    · intro e hok he
      show ((files.map (processImageSingleOptimized env scales)).get ⟨i, hr⟩) = _
      rw [List.get_map, processImageSingleOptimized, hs, hok, he]
    · intro hok hok2
      show ((files.map (processImageSingleOptimized env scales)).get ⟨i, hr⟩) = _
      rw [List.get_map, processImageSingleOptimized, hs, hok, hok2]
  · rw [runWorkerGroup, List.countP_map]
    apply List.countP_congr
    intro f _
    simp only [Function.comp_apply]
    rw [processImage_single_success_iff env scales s hs f]

/-- Witness for C6: a group of 3 files where file `2` is unreadable. -/
theorem worker_failure_isolation_witness :
    (headScale [1] = some 1) ∧
    ((runWorkerGroup
        (⟨fun f => if f = 2 then Except.error "corrupt" else Except.ok (),
          fun _ => Except.ok ()⟩ : AdapterEnv Nat) [1] [1, 2, 3]).length
        = ([1, 2, 3] : List Nat).length ∧
      (∀ i (h : i < ([1, 2, 3] : List Nat).length),
        ∃ hr : i < (runWorkerGroup
            (⟨fun f => if f = 2 then Except.error "corrupt" else Except.ok (),
              fun _ => Except.ok ()⟩ : AdapterEnv Nat) [1] [1, 2, 3]).length,
        ((runWorkerGroup
            (⟨fun f => if f = 2 then Except.error "corrupt" else Except.ok (),
              fun _ => Except.ok ()⟩ : AdapterEnv Nat) [1] [1, 2, 3]).get ⟨i, hr⟩).file
          = ([1, 2, 3] : List Nat).get ⟨i, h⟩ ∧
        (∀ e, (if ([1, 2, 3] : List Nat).get ⟨i, h⟩ = 2 then Except.error "corrupt"
              else Except.ok ()) = Except.error e →
          (runWorkerGroup
              (⟨fun f => if f = 2 then Except.error "corrupt" else Except.ok (),
                fun _ => Except.ok ()⟩ : AdapterEnv Nat) [1] [1, 2, 3]).get ⟨i, hr⟩
            = { file := ([1, 2, 3] : List Nat).get ⟨i, h⟩, success := false,
                generatedFiles := 0, error := some e }) ∧
        (∀ e, (if ([1, 2, 3] : List Nat).get ⟨i, h⟩ = 2 then Except.error "corrupt"
              else Except.ok ()) = Except.ok () →
            Except.ok () = Except.error e →
          (runWorkerGroup
              (⟨fun f => if f = 2 then Except.error "corrupt" else Except.ok (),
                fun _ => Except.ok ()⟩ : AdapterEnv Nat) [1] [1, 2, 3]).get ⟨i, hr⟩
            = { file := ([1, 2, 3] : List Nat).get ⟨i, h⟩, success := false,
                generatedFiles := 0, error := some e }) ∧
        ((if ([1, 2, 3] : List Nat).get ⟨i, h⟩ = 2 then Except.error "corrupt"
              else Except.ok ()) = Except.ok () →
            (Except.ok () : Except String Unit) = Except.ok () →
          (runWorkerGroup
              (⟨fun f => if f = 2 then Except.error "corrupt" else Except.ok (),
                fun _ => Except.ok ()⟩ : AdapterEnv Nat) [1] [1, 2, 3]).get ⟨i, hr⟩
            = { file := ([1, 2, 3] : List Nat).get ⟨i, h⟩, success := true,
                generatedFiles := 1, error := none })) ∧
      (runWorkerGroup
          (⟨fun f => if f = 2 then Except.error "corrupt" else Except.ok (),
            fun _ => Except.ok ()⟩ : AdapterEnv Nat) [1] [1, 2, 3]).countP
          (fun r => !r.success)
        = ([1, 2, 3] : List Nat).countP
            (fun f => !((if f = 2 then Except.error "corrupt" else Except.ok ())
                : Except String Unit).isOk
              || !((Except.ok () : Except String Unit)).isOk)) :=
  ⟨rfl, worker_failure_isolation
    (⟨fun f => if f = 2 then Except.error "corrupt" else Except.ok (),
      fun _ => Except.ok ()⟩ : AdapterEnv Nat) [1] [1, 2, 3] 1 rfl⟩

/-! ### File enumeration (src/index.js, `getImageFiles`, lines 74–84) -/

/-- Filesystem oracle: directory existence (`fs.existsSync`) and the raw
ordered `fs.readdirSync` listing of base names. -/
structure FileSystem where
  dirExists : String → Bool
  readdir : String → List String

/-- `String.prototype.toLowerCase()`, faithful for the ASCII extension
strings this program compares. -/
def jsToLowerCase (s : String) : String := String.mk (s.toList.map Char.toLower)

/-- `path.extname` on a base name as returned by `readdirSync`: the suffix
from the last `.`, except that a name with no `.`, a name whose only `.`
leads it (dot-files), and the special name `".."` have no extension. -/
def extname (file : String) : String :=
  if file = ".." then ""
  else
    match ((file.toList.enum.filter (fun p => p.2 == '.')).map Prod.fst).getLast? with
    | none => ""
    | some 0 => ""
    | some i => String.mk (file.toList.drop i)

/-- Embedding of `getImageFiles`: throw if the directory is missing, else
filter the listing by lowercased extension membership in `supportedFormats`
and join each name onto the directory (`path.join` modelled as
`inputDir ++ "/" ++ file`). -/
def getImageFiles (fs : FileSystem) (inputDir : String) (supportedFormats : List String) :
    Except String (List String) :=
  if fs.dirExists inputDir then
    Except.ok (((fs.readdir inputDir).filter
        (fun file => supportedFormats.contains (jsToLowerCase (extname file)))).map
      (fun file => inputDir ++ "/" ++ file))
  else
    Except.error ("输入目录不存在: " ++ inputDir)

/-! ### Job configs and `main`'s enumeration loop (src/index.js, lines 33–64
and 526–563) -/

/-- A resolved job configuration (the fields of `defaultConfig`, plus the
optional `name` and `threadsPerScale` that only user configs may carry). -/
structure Config where
  name : Option String
  inputDir : String
  outputDir : String
  targetWidth : Nat
  targetHeight : Nat
  cropPosition : String
  scales : List Nat
  quality : Nat
  maxWorkers : Nat
  supportedFormats : List String
  threadsPerScale : Option Nat
deriving DecidableEq

/-- The `defaultConfig` object of src/index.js. -/
def defaultConfig : Config :=
  { name := none
    inputDir := "./input"
    outputDir := "./output"
    targetWidth := 800
    targetHeight := 600
    cropPosition := "center"
    scales := [1, 2, 3]
    quality := 80
    maxWorkers := 4
    supportedFormats := [".jpg", ".jpeg", ".png", ".bmp", ".tiff", ".gif", ".webp"]
    threadsPerScale := none }

/-- `config.threadsPerScale || 1` in `main`: both a missing field and the
falsy value `0` default to 1. -/
def jsOrOne (v : Option Nat) : Nat :=
  match v with
  | none => 1
  | some 0 => 1
  | some n => n

/-- One entry of `configFilesCounts` in `main`: the `catch` branch records
the job with `fileCount: 0, files: []`. -/
def enumEntry (fs : FileSystem) (c : Config) : Config × Nat × List String :=
  match getImageFiles fs c.inputDir c.supportedFormats with
  | Except.ok files => (c, files.length, files)
  | Except.error _ => (c, 0, [])

/-- The `configFilesCounts` array built by `main`'s enumeration loop. -/
def configFilesCounts (fs : FileSystem) (configs : List Config) :
    List (Config × Nat × List String) :=
  configs.map (enumEntry fs)

/-- The units one enumerated entry adds to `totalProcessingUnits` in `main`. -/
def unitsForEntry (e : Config × Nat × List String) : Nat :=
  jobProcessingUnits (⟨e.2.2, e.1.scales, jsOrOne e.1.threadsPerScale⟩ : JobSpec String)

/-- `globalProgress.total` as computed by `main` over all configs. -/
def mainTotalUnits (fs : FileSystem) (configs : List Config) : Nat :=
  ((configFilesCounts fs configs).map unitsForEntry).sum

lemma actualFilesFor_zero (t k : Nat) : actualFilesFor 0 t k = 0 := by
  unfold actualFilesFor
  simp [Nat.zero_sub]

lemma jobProcessingUnits_nil_files (scales : List Nat) (t : Nat) :
    jobProcessingUnits (⟨([] : List String), scales, t⟩ : JobSpec String) = 0 := by
  unfold jobProcessingUnits
  simp [actualFilesFor_zero]

/-- C7: a config whose input directory does not exist makes `getImageFiles`
throw the `directory does not exist` error; `main` records that job with
`fileCount 0` and empty file list, the job contributes 0 units to
`globalProgress.total`, and every other config's entry is computed from that
config alone, unaffected. -/
theorem missing_dir_fails_job_only (fs : FileSystem) (configs : List Config)
    (j : Nat) (hj : j < configs.length)
    (hmiss : fs.dirExists (configs.get ⟨j, hj⟩).inputDir = false) :
    getImageFiles fs (configs.get ⟨j, hj⟩).inputDir (configs.get ⟨j, hj⟩).supportedFormats
      = Except.error ("输入目录不存在: " ++ (configs.get ⟨j, hj⟩).inputDir) ∧
    (configFilesCounts fs configs)[j]? = some ((configs.get ⟨j, hj⟩), 0, []) ∧
    unitsForEntry (enumEntry fs (configs.get ⟨j, hj⟩)) = 0 ∧
    (∀ k (hk : k < configs.length),
      (configFilesCounts fs configs)[k]? = some (enumEntry fs (configs.get ⟨k, hk⟩))) := by
  have herr : getImageFiles fs (configs.get ⟨j, hj⟩).inputDir
      (configs.get ⟨j, hj⟩).supportedFormats
      = Except.error ("输入目录不存在: " ++ (configs.get ⟨j, hj⟩).inputDir) := by
    rw [getImageFiles, if_neg]
    rw [hmiss]
    simp
  have hentry : enumEntry fs (configs.get ⟨j, hj⟩) = ((configs.get ⟨j, hj⟩), 0, []) := by
    rw [enumEntry, herr]
  refine ⟨herr, ?_, ?_, ?_⟩
  · rw [configFilesCounts, List.getElem?_map, List.getElem?_eq_getElem hj]
    simp only [Option.map_some']
    rw [List.get_eq_getElem] at hentry
    rw [hentry]
    rfl
  · rw [hentry, unitsForEntry]
    exact jobProcessingUnits_nil_files _ _
  · intro k hk
    rw [configFilesCounts, List.getElem?_map, List.getElem?_eq_getElem hk]
    simp only [Option.map_some']
    rw [List.get_eq_getElem]

/-- Witness for C7: two configs, the second one's input directory missing. -/
theorem missing_dir_fails_job_only_witness :
    ((1 : Nat) < ([{ defaultConfig with inputDir := "in0" },
        { defaultConfig with inputDir := "gone" }] : List Config).length ∧
      (⟨fun d => d == "in0", fun _ => ["a.jpg"]⟩ : FileSystem).dirExists
        (([{ defaultConfig with inputDir := "in0" },
          { defaultConfig with inputDir := "gone" }] : List Config).get
            ⟨1, by decide⟩).inputDir = false) ∧
    (getImageFiles (⟨fun d => d == "in0", fun _ => ["a.jpg"]⟩ : FileSystem)
        (([{ defaultConfig with inputDir := "in0" },
          { defaultConfig with inputDir := "gone" }] : List Config).get ⟨1, by decide⟩).inputDir
        (([{ defaultConfig with inputDir := "in0" },
          { defaultConfig with inputDir := "gone" }] : List Config).get
            ⟨1, by decide⟩).supportedFormats
        = Except.error ("输入目录不存在: "
            ++ (([{ defaultConfig with inputDir := "in0" },
              { defaultConfig with inputDir := "gone" }] : List Config).get
                ⟨1, by decide⟩).inputDir) ∧
      (configFilesCounts (⟨fun d => d == "in0", fun _ => ["a.jpg"]⟩ : FileSystem)
          [{ defaultConfig with inputDir := "in0" },
            { defaultConfig with inputDir := "gone" }])[1]?
        = some ((([{ defaultConfig with inputDir := "in0" },
            { defaultConfig with inputDir := "gone" }] : List Config).get
              ⟨1, by decide⟩), 0, []) ∧
      unitsForEntry (enumEntry (⟨fun d => d == "in0", fun _ => ["a.jpg"]⟩ : FileSystem)
          (([{ defaultConfig with inputDir := "in0" },
            { defaultConfig with inputDir := "gone" }] : List Config).get ⟨1, by decide⟩)) = 0 ∧
      (∀ k (hk : k < ([{ defaultConfig with inputDir := "in0" },
          { defaultConfig with inputDir := "gone" }] : List Config).length),
        (configFilesCounts (⟨fun d => d == "in0", fun _ => ["a.jpg"]⟩ : FileSystem)
            [{ defaultConfig with inputDir := "in0" },
              { defaultConfig with inputDir := "gone" }])[k]?
          = some (enumEntry (⟨fun d => d == "in0", fun _ => ["a.jpg"]⟩ : FileSystem)
              (([{ defaultConfig with inputDir := "in0" },
                { defaultConfig with inputDir := "gone" }] : List Config).get ⟨k, hk⟩)))) :=
  ⟨⟨by decide, by decide⟩,
    missing_dir_fails_job_only (⟨fun d => d == "in0", fun _ => ["a.jpg"]⟩ : FileSystem)
      [{ defaultConfig with inputDir := "in0" }, { defaultConfig with inputDir := "gone" }]
      1 (by decide) (by decide)⟩

/-- Modelled from the spec's words for C8 only: a file name matches an
accepted extension case-insensitively (both sides lowercased). -/
def matchesExtensionCaseInsensitive (fmt name : String) : Bool :=
  jsToLowerCase (extname name) == jsToLowerCase fmt

/-- C8 counterexample: the accepted extension `.JPG` matches `a.JPG`
case-insensitively, yet `getImageFiles` returns the empty list — the code
lowercases only the file's extension and compares it verbatim with the
configured entries, so an uppercase configured extension never matches. -/
theorem getImageFiles_not_case_insensitive :
    matchesExtensionCaseInsensitive ".JPG" "a.JPG" = true ∧
    getImageFiles (⟨fun d => d == "dir", fun _ => ["a.JPG"]⟩ : FileSystem) "dir" [".JPG"]
      = Except.ok [] := by
  constructor
  · decide
  · rfl

/-- C8 (amended): when the directory exists, `getImageFiles` returns — in
enumeration order, each joined onto the directory — exactly the listed names
whose lowercased extension occurs verbatim in `supportedFormats` (matching is
case-insensitive in the file name only; accepted extensions must already be
lowercase). -/
theorem getImageFiles_filters_lowercased (fs : FileSystem) (inputDir : String)
    (supportedFormats : List String) (hdir : fs.dirExists inputDir = true) :
    ∃ sub : List String, sub.Sublist (fs.readdir inputDir) ∧
      getImageFiles fs inputDir supportedFormats
        = Except.ok (sub.map (fun file => inputDir ++ "/" ++ file)) ∧
      ∀ file, file ∈ sub ↔ file ∈ fs.readdir inputDir ∧
        supportedFormats.contains (jsToLowerCase (extname file)) = true := by
  refine ⟨(fs.readdir inputDir).filter
      (fun file => supportedFormats.contains (jsToLowerCase (extname file))),
    List.filter_sublist _, ?_, ?_⟩
  · rw [getImageFiles, if_pos (by rw [hdir])]
  · intro file
    exact List.mem_filter

/-- Witness for C8's amended statement on a mixed listing. -/
theorem getImageFiles_filters_lowercased_witness :
    ((⟨fun d => d == "dir", fun _ => ["a.jpg", "b.txt", "c.PNG"]⟩ : FileSystem).dirExists "dir"
        = true) ∧
    (∃ sub : List String,
      sub.Sublist ((⟨fun d => d == "dir",
          fun _ => ["a.jpg", "b.txt", "c.PNG"]⟩ : FileSystem).readdir "dir") ∧
      getImageFiles (⟨fun d => d == "dir",
          fun _ => ["a.jpg", "b.txt", "c.PNG"]⟩ : FileSystem) "dir" [".jpg", ".png"]
        = Except.ok (sub.map (fun file => "dir" ++ "/" ++ file)) ∧
      ∀ file, file ∈ sub ↔
        file ∈ (⟨fun d => d == "dir",
            fun _ => ["a.jpg", "b.txt", "c.PNG"]⟩ : FileSystem).readdir "dir" ∧
        ([".jpg", ".png"] : List String).contains (jsToLowerCase (extname file)) = true) :=
  ⟨by decide,
    getImageFiles_filters_lowercased
      (⟨fun d => d == "dir", fun _ => ["a.jpg", "b.txt", "c.PNG"]⟩ : FileSystem)
      "dir" [".jpg", ".png"] (by decide)⟩

/-! ### Config loading (src/index.js, `loadConfig`, lines 46–64) -/

/-- A user-supplied config object from `config.json`: every field optional,
absent fields fall back to `defaultConfig` via the spread
`{ ...defaultConfig, ...config }`. -/
structure PartialConfig where
  name : Option String := none
  inputDir : Option String := none
  outputDir : Option String := none
  targetWidth : Option Nat := none
  targetHeight : Option Nat := none
  cropPosition : Option String := none
  scales : Option (List Nat) := none
  quality : Option Nat := none
  maxWorkers : Option Nat := none
  supportedFormats : Option (List String) := none
  threadsPerScale : Option Nat := none
deriving DecidableEq

/-- `{ ...defaultConfig, ...config }`: fields present in the user config
override the defaults; `name` and `threadsPerScale` have no default. -/
def mergeWithDefault (p : PartialConfig) : Config :=
  { name := p.name
    inputDir := p.inputDir.getD defaultConfig.inputDir
    outputDir := p.outputDir.getD defaultConfig.outputDir
    targetWidth := p.targetWidth.getD defaultConfig.targetWidth
    targetHeight := p.targetHeight.getD defaultConfig.targetHeight
    cropPosition := p.cropPosition.getD defaultConfig.cropPosition
    scales := p.scales.getD defaultConfig.scales
    quality := p.quality.getD defaultConfig.quality
    maxWorkers := p.maxWorkers.getD defaultConfig.maxWorkers
    supportedFormats := p.supportedFormats.getD defaultConfig.supportedFormats
    threadsPerScale := p.threadsPerScale }

/-- The parsed shape of `config.json` when `JSON.parse` succeeds: either the
new `{ configs: [...] }` array format — taken whenever `configData.configs`
is an array, and note a JS `[]` is truthy — or the legacy single-object
format (any other parse result). -/
inductive ParsedConfigFile where
  | collection (configs : List PartialConfig)
  | single (config : PartialConfig)
deriving DecidableEq

/-- `loadConfig()`: `none` models a missing `config.json`,
`some (Except.error e)` a `JSON.parse`/read failure (warned, defaults used),
`some (Except.ok d)` a successful parse of shape `d`. -/
def loadConfig (input : Option (Except String ParsedConfigFile)) : List Config :=
  match input with
  | none => [defaultConfig]
  | some (Except.error _) => [defaultConfig]
  | some (Except.ok (ParsedConfigFile.collection cs)) => cs.map mergeWithDefault
  | some (Except.ok (ParsedConfigFile.single c)) => [mergeWithDefault c]

/-- C9 counterexample: a config file containing `{"configs": []}` makes
`loadConfig` return the empty list (JS `[]` is truthy, so the array branch is
taken and maps over nothing) — refuting "always returns a non-empty list". -/
theorem loadConfig_empty_collection :
    loadConfig (some (Except.ok (ParsedConfigFile.collection []))) = [] := rfl

/-- C9 (amended): `loadConfig` returns the empty list exactly when the config
file parses to an empty `configs` array; otherwise it returns the defaults
(missing or unparsable file) or the user configs merged over the defaults,
so every returned configuration carries a value for each `defaultConfig`
field. -/
theorem loadConfig_shape :
    (∀ input, loadConfig input = []
      ↔ input = some (Except.ok (ParsedConfigFile.collection []))) ∧
    loadConfig none = [defaultConfig] ∧
    (∀ e, loadConfig (some (Except.error e)) = [defaultConfig]) ∧
    (∀ cs, loadConfig (some (Except.ok (ParsedConfigFile.collection cs)))
      = cs.map mergeWithDefault) ∧
    (∀ c, loadConfig (some (Except.ok (ParsedConfigFile.single c)))
      = [mergeWithDefault c]) ∧
    (∀ input, ∀ cfg ∈ loadConfig input,
      cfg = defaultConfig ∨ ∃ p, cfg = mergeWithDefault p) := by
  refine ⟨?_, rfl, fun e => rfl, fun cs => rfl, fun c => rfl, ?_⟩
  · intro input
    match input with
    | none => simp [loadConfig]
    | some (Except.error e) => simp [loadConfig]
    | some (Except.ok (ParsedConfigFile.collection cs)) => simp [loadConfig]
    | some (Except.ok (ParsedConfigFile.single c)) => simp [loadConfig]
  · intro input cfg hcfg
    match input with
    | none =>
      left
      simpa [loadConfig] using hcfg
    | some (Except.error e) =>
      left
      simpa [loadConfig] using hcfg
    | some (Except.ok (ParsedConfigFile.collection cs)) =>
      right
      rw [loadConfig] at hcfg
      obtain ⟨p, -, rfl⟩ := List.mem_map.mp hcfg
      exact ⟨p, rfl⟩
    | some (Except.ok (ParsedConfigFile.single c)) =>
      right
      rw [loadConfig] at hcfg
      exact ⟨c, by simpa using hcfg⟩

end ImageBitpatch
